import Mathlib

/-
Verification of the enclaude mount-path authorization layer and credential
collectors, shallowly embedded in Lean.

Paths are modelled as their slash-separated component lists: an absolute,
cleaned path such as /home/user/.ssh is the list ["home", "user", ".ssh"].
A raw (possibly relative, possibly uncleaned) path as fed to ExpandPath is a
GoPath: an absolute flag plus a component list that may still contain "",
"." and ".." components, exactly the information content of the raw string.
Filesystem and process state (home directory, working directory, environment
variables, stat probes, symlink resolution) is an explicit Env record.
-/

namespace Enclaude

/-- Result of a symlink-resolution probe (filepath.EvalSymlinks):
the resolved path, a not-found error, or any other error. -/
inductive EvalRes
  | resolved (p : List String)
  | notExist
  | otherError
deriving DecidableEq

/-- Ambient process and filesystem state: os.UserHomeDir, os.Getwd,
os.Getenv, filepath.EvalSymlinks, and the stat-based file/directory
existence probes of the security package. -/
structure Env where
  home : Option (List String)
  cwd : Option (List String)
  getenv : String → String
  evalSym : List String → EvalRes
  fileExists : List String → Bool
  dirExists : List String → Bool

/-- A raw path as handed to ExpandPath: absolute flag plus components. -/
structure GoPath where
  isAbs : Bool
  comps : List String
deriving DecidableEq

/-- container.Mount: a bind from host into the sandbox. -/
structure Mount where
  source : List String
  target : List String
  readOnly : Bool
deriving DecidableEq

/-- strings.HasPrefix(s, ".."): the first two characters are dots. -/
def startsWithDotDot (s : String) : Bool :=
  match s.data with
  | '.' :: '.' :: _ => true
  | _ => false

/-- One step of Go filepath.Clean over path components. -/
def cleanStep (isAbs : Bool) (acc : List String) (c : String) : List String :=
  if c = "" ∨ c = "." then acc
  else if c = ".." then
    match acc.getLast? with
    | some last => if last = ".." then (if isAbs then acc else acc ++ [".."]) else acc.dropLast
    | none => if isAbs then acc else acc ++ [".."]
  else acc ++ [c]

/-- Go filepath.Clean on a component list. -/
def cleanComps (isAbs : Bool) (cs : List String) : List String :=
  cs.foldl (cleanStep isAbs) []

/-- Errors of ExpandPath: empty input, home-directory lookup failure,
working-directory lookup failure, non-not-found symlink resolution error. -/
inductive ExpandErr
  | emptyPath
  | homeDirFail
  | cwdFail
  | resolveFail
deriving DecidableEq

/-- The tilde-expansion step of security.ExpandPath: a relative path whose
first component is "~" is rebased onto the home directory. -/
def expandTildeStep (env : Env) (p : GoPath) : Except ExpandErr GoPath :=
  if p.isAbs = false ∧ p.comps.head? = some "~" then
    match env.home with
    | none => Except.error ExpandErr.homeDirFail
    | some home => Except.ok { isAbs := true, comps := home ++ p.comps.tail }
  else Except.ok p

/-- The absolutization step of security.ExpandPath: a still-relative path is
joined onto the current working directory. -/
def absStep (env : Env) (isAbs : Bool) (cleaned : List String) : Except ExpandErr (List String) :=
  if isAbs then Except.ok cleaned
  else
    match env.cwd with
    | none => Except.error ExpandErr.cwdFail
    | some cwd => Except.ok (cleanComps true (cwd ++ cleaned))

/-- The symlink-resolution step of security.ExpandPath: a resolved path is
returned, a not-found error returns the cleaned absolute path unchanged,
any other error is fatal. -/
def resolveStep (env : Env) (abs : List String) : Except ExpandErr (List String) :=
  match env.evalSym abs with
  | EvalRes.resolved r => Except.ok r
  | EvalRes.notExist => Except.ok abs
  | EvalRes.otherError => Except.error ExpandErr.resolveFail

/-- The tail of security.ExpandPath after tilde expansion: clean,
absolutize, then resolve symlinks. -/
def afterTilde (env : Env) (q : GoPath) : Except ExpandErr (List String) :=
  match absStep env q.isAbs (cleanComps q.isAbs q.comps) with
  | Except.error e => Except.error e
  | Except.ok abs => resolveStep env abs

/-- security.ExpandPath: reject the empty path, expand a leading tilde,
clean, absolutize against the working directory, then resolve symlinks;
a not-found resolution error returns the cleaned absolute path unchanged. -/
def ExpandPath (env : Env) (p : GoPath) : Except ExpandErr (List String) :=
  if p.isAbs = false ∧ p.comps = [] then Except.error ExpandErr.emptyPath
  else
    match expandTildeStep env p with
    | Except.error e => Except.error e
    | Except.ok q => afterTilde env q

/-- security.pathMatches relative-path computation: whether the string
filepath.Rel(target, path) has string prefix "..".  On cleaned absolute
component lists: stripping the common prefix, a leftover target component
yields a ".."-led relative string; with the target exhausted the relative
string is the joined remainder of path, whose first characters come from
path's next component. -/
def relStartsWithDotDot : List String → List String → Bool
  | [], [] => false
  | [], c :: _ => startsWithDotDot c
  | _ :: _, [] => true
  | t :: ts, p :: ps => if t = p then relStartsWithDotDot ts ps else true

/-- security.pathMatches: path equals target, or filepath.Rel(target, path)
does not begin with "..". -/
def pathMatches (path target : List String) : Bool :=
  if path = target then true else !(relStartsWithDotDot target path)

/-- security.HardcodedDeniedPaths, as home-relative component lists. -/
def HardcodedDeniedPaths : List (List String) :=
  [[".gnupg"], [".netrc"], [".docker", "config.json"], [".kube", "config"], [".aws", "credentials"]]

/-- security.CredentialControlledPaths, as home-relative component lists. -/
def CredentialControlledPaths : List (List String) :=
  [[".ssh"], [".aws"], [".config", "gh"], [".config", "gcloud"]]

/-- security.expandTilde for the rule lists: every rule is tilde-relative,
so expansion prefixes the home directory. -/
def expandTilde (r : List String) (home : List String) : List String := home ++ r

/-- Errors of mount-path validation: home lookup failure, hard-denied rule
hit, credential-controlled rule hit. -/
inductive ValErr
  | homeDirFail
  | pathDenied (rule : List String)
  | pathRequiresCredential (rule : List String)
deriving DecidableEq

/-- security.ValidateMountPath: reject a path matching any hardcoded denied
rule; credential-controlled rules are not checked here. -/
def ValidateMountPath (env : Env) (path : List String) : Except ValErr Unit :=
  match env.home with
  | none => Except.error ValErr.homeDirFail
  | some home =>
    match HardcodedDeniedPaths.find? (fun d => pathMatches path (expandTilde d home)) with
    | some d => Except.error (ValErr.pathDenied d)
    | none => Except.ok ()

/-- security.ValidateMountPathStrict: ValidateMountPath, then additionally
reject a path matching any credential-controlled rule. -/
def ValidateMountPathStrict (env : Env) (path : List String) : Except ValErr Unit :=
  match ValidateMountPath env path with
  | Except.error e => Except.error e
  | Except.ok _ =>
    match env.home with
    | none => Except.error ValErr.homeDirFail
    | some home =>
      match CredentialControlledPaths.find? (fun c => pathMatches path (expandTilde c home)) with
      | some c => Except.error (ValErr.pathRequiresCredential c)
      | none => Except.ok ()

/-- First component of a relative component list begins with "..". -/
def firstCompEscapes : List String → Bool
  | [] => false
  | c :: _ => startsWithDotDot c

/-- A concrete environment: home /home/user, working directory /srv, no
environment variables set, nothing exists on disk. -/
def envHU : Env where
  home := some ["home", "user"]
  cwd := some ["srv"]
  getenv := fun _ => ""
  evalSym := fun _ => EvalRes.notExist
  fileExists := fun _ => false
  dirExists := fun _ => false

/-- config authentication mode constants. -/
def AuthAuto : String := "auto"

/-- config authentication mode: session directory only. -/
def AuthSession : String := "session"

/-- config authentication mode: API key only. -/
def AuthAPIKey : String := "api-key"

/-- config credential setting constants. -/
def CredentialAuto : String := "auto"

/-- config credential setting: always attempt. -/
def CredentialEnabled : String := "enabled"

/-- config credential setting: never attempt. -/
def CredentialDisabled : String := "disabled"

/-- config session-directory setting: no session mount. -/
def SessionNone : String := "none"

/-- config session-directory setting: read-only mount. -/
def SessionReadOnly : String := "readonly"

/-- config session-directory setting: writable mount. -/
def SessionReadWrite : String := "readwrite"

/-- config.ClaudeConfig: authentication mode and session-directory mode. -/
structure ClaudeConfig where
  auth : String
  sessionDir : String
deriving DecidableEq

/-- config.SSHConfig: boolean opt-in gate plus key list and sub-features. -/
structure SSHConfig where
  enabled : Bool
  keys : List GoPath
  knownHosts : Bool
  agentForwarding : Bool
deriving DecidableEq

/-- config.CredentialsConfig: tri-state settings for GitHub and GCloud,
boolean-gated SSH. -/
structure CredentialsConfig where
  github : String
  gcloud : String
  ssh : SSHConfig
deriving DecidableEq

/-- The slice of config.Config the credential collectors read. -/
structure Config where
  claude : ClaudeConfig
  credentials : CredentialsConfig
deriving DecidableEq

/-- The fixed in-sandbox target of the session-directory mount,
/tmp/.claude. -/
def tmpClaudeTarget : List String := ["tmp", ".claude"]

/-- The session-directory sub-mode after defaulting: an unset value
resolves to read-only. -/
def resolvedSessionDir (cfg : Config) : String :=
  if cfg.claude.sessionDir = "" then SessionReadOnly else cfg.claude.sessionDir

/-- credentials.CollectClaudeAuth: API-key environment passthrough and the
session-directory mount, driven by the auth mode and session-dir mode. -/
def CollectClaudeAuth (env : Env) (cfg : Config) : List Mount × List (String × String) :=
  match env.home with
  | none => ([], [])
  | some home =>
    let auth := if cfg.claude.auth = "" then AuthAuto else cfg.claude.auth
    let apiEnv :=
      if (auth = AuthAuto ∨ auth = AuthAPIKey) ∧ env.getenv "ANTHROPIC_API_KEY" ≠ "" then
        [("ANTHROPIC_API_KEY", env.getenv "ANTHROPIC_API_KEY")]
      else []
    let mounts :=
      if auth = AuthAuto ∨ auth = AuthSession then
        if resolvedSessionDir cfg ≠ SessionNone then
          if env.dirExists (home ++ [".claude"]) then
            [{ source := home ++ [".claude"], target := tmpClaudeTarget,
               readOnly := if resolvedSessionDir cfg = SessionReadOnly then true else false }]
          else []
        else []
      else []
    (mounts, apiEnv)

/-- credentials.shouldEnable: enabled is on, disabled is off, auto and any
other value fall through to on (the auto branch returns true whether or not
an environment variable is present — default to trying to pass through). -/
def shouldEnable (env : Env) (setting : String) (envVars : List String) : Bool :=
  if setting = CredentialEnabled then true
  else if setting = CredentialDisabled then false
  else if setting = CredentialAuto then
    if envVars.any (fun v => decide (env.getenv v ≠ "")) then true else true
  else true

/-- Splits a character list at '/' separators. -/
def splitSlashAux : List Char → List Char → List String
  | [], acc => [String.mk acc.reverse]
  | c :: cs, acc =>
    if c = '/' then String.mk acc.reverse :: splitSlashAux cs []
    else splitSlashAux cs (c :: acc)

/-- Components of a raw path string, empty components dropped. -/
def strToComps (s : String) : List String :=
  (splitSlashAux s.data []).filter (fun c => decide (c ≠ ""))

/-- The gh hosts file, relative to home. -/
def ghHostsRel : List String := [".config", "gh", "hosts.yml"]

/-- The fixed in-sandbox target of the gh hosts file mount. -/
def ghHostsTarget : List String := ["root", ".config", "gh", "hosts.yml"]

/-- The GitHub block of credentials.CollectExternalCredentials: prefer the
GH_TOKEN then GITHUB_TOKEN environment variables; only with neither set,
mount the gh hosts file if it exists. -/
def collectGitHub (env : Env) (cfg : Config) (home : List String) :
    List Mount × List (String × String) :=
  if shouldEnable env cfg.credentials.github ["GH_TOKEN", "GITHUB_TOKEN"] then
    if env.getenv "GH_TOKEN" ≠ "" then
      ([], [("GH_TOKEN", env.getenv "GH_TOKEN")])
    else if env.getenv "GITHUB_TOKEN" ≠ "" then
      ([], [("GH_TOKEN", env.getenv "GITHUB_TOKEN")])
    else
      if env.fileExists (home ++ ghHostsRel) then
        ([{ source := home ++ ghHostsRel, target := ghHostsTarget, readOnly := true }], [])
      else ([], [])
  else ([], [])

/-- The application-default-credentials file, relative to home. -/
def adcRel : List String := [".config", "gcloud", "application_default_credentials.json"]

/-- The fixed in-sandbox target of the gcloud credentials mount. -/
def adcTarget : List String := ["root", ".config", "gcloud", "application_default_credentials.json"]

/-- The in-sandbox gcloud credentials path, as the environment value. -/
def adcTargetStr : String := "/root/.config/gcloud/application_default_credentials.json"

/-- The Google Cloud block of credentials.CollectExternalCredentials: mount
the well-known default credentials file if present; independently mount the
file named by GOOGLE_APPLICATION_CREDENTIALS if set and readable; both
rewrite the environment variable to the in-sandbox path. -/
def collectGCloud (env : Env) (cfg : Config) (home : List String) :
    List Mount × List (String × String) :=
  if shouldEnable env cfg.credentials.gcloud ["GOOGLE_APPLICATION_CREDENTIALS"] then
    let base : List Mount × List (String × String) :=
      if env.fileExists (home ++ adcRel) then
        ([{ source := home ++ adcRel, target := adcTarget, readOnly := true }],
         [("GOOGLE_APPLICATION_CREDENTIALS", adcTargetStr)])
      else ([], [])
    let customPath := env.getenv "GOOGLE_APPLICATION_CREDENTIALS"
    if customPath ≠ "" ∧ env.fileExists (strToComps customPath) then
      (base.1 ++ [{ source := strToComps customPath, target := adcTarget, readOnly := true }],
       base.2 ++ [("GOOGLE_APPLICATION_CREDENTIALS", adcTargetStr)])
    else base
  else ([], [])

/-- credentials.collectSSHCredentials: mount each configured key file that
expands and exists, by basename, read-only; optionally the known_hosts
file; optionally forward the agent socket read-write, rewriting
SSH_AUTH_SOCK to the in-sandbox socket path. -/
def collectSSHCredentials (env : Env) (cfg : Config) (home : List String) :
    List Mount × List (String × String) :=
  let keyMounts := cfg.credentials.ssh.keys.foldl (fun acc keyPath =>
    match ExpandPath env keyPath with
    | Except.error _ => acc
    | Except.ok expanded =>
      if env.fileExists expanded then
        match expanded.getLast? with
        | some keyName => acc ++ [{ source := expanded, target := ["root", ".ssh", keyName], readOnly := true }]
        | none => acc ++ [{ source := expanded, target := ["root", ".ssh"], readOnly := true }]
      else acc) []
  let khMounts :=
    if cfg.credentials.ssh.knownHosts then
      if env.fileExists (home ++ [".ssh", "known_hosts"]) then
        [{ source := home ++ [".ssh", "known_hosts"], target := ["root", ".ssh", "known_hosts"], readOnly := true }]
      else []
    else []
  let agent : List Mount × List (String × String) :=
    if cfg.credentials.ssh.agentForwarding then
      if env.getenv "SSH_AUTH_SOCK" ≠ "" then
        ([{ source := strToComps (env.getenv "SSH_AUTH_SOCK"), target := ["tmp", "ssh-agent.sock"], readOnly := false }],
         [("SSH_AUTH_SOCK", "/tmp/ssh-agent.sock")])
      else ([], [])
    else ([], [])
  (keyMounts ++ khMounts ++ agent.1, agent.2)

/-- credentials.CollectExternalCredentials: home lookup, then the GitHub,
GCloud and (when enabled) SSH blocks in order. -/
def CollectExternalCredentials (env : Env) (cfg : Config) :
    Except Unit (List Mount × List (String × String)) :=
  match env.home with
  | none => Except.error ()
  | some home =>
    let gh := collectGitHub env cfg home
    let gc := collectGCloud env cfg home
    let ssh :=
      if cfg.credentials.ssh.enabled then collectSSHCredentials env cfg home
      else ([], [])
    Except.ok (gh.1 ++ gc.1 ++ ssh.1, gh.2 ++ gc.2 ++ ssh.2)

/-- Fatal errors of runContainer's flag-mount loop: path expansion failure
or validation failure. -/
inductive MountSetupErr
  | invalidPath (e : ExpandErr)
  | denied (e : ValErr)
deriving DecidableEq

/-- The --mount / --mount-ro loop of cli.runContainer: each flag value is
expanded with security.ExpandPath and checked with security.ValidateMountPath
(both errors fatal), then bound at its own path. -/
def addFlagMounts (env : Env) (ro : Bool) : List GoPath → Except MountSetupErr (List Mount)
  | [] => Except.ok []
  | m :: rest =>
    match ExpandPath env m with
    | Except.error e => Except.error (MountSetupErr.invalidPath e)
    | Except.ok expanded =>
      match ValidateMountPath env expanded with
      | Except.error e => Except.error (MountSetupErr.denied e)
      | Except.ok _ =>
        match addFlagMounts env ro rest with
        | Except.error e => Except.error e
        | Except.ok tail =>
          Except.ok ({ source := expanded, target := expanded, readOnly := ro } :: tail)

/-- Which of the three select cases of container.Runner.Run resolves first:
the wait error channel (with whether an error was delivered and whether the
context was already cancelled), the status channel with the exit code, or
context cancellation. -/
inductive WaitEvent
  | errCh (hasErr : Bool) (ctxCancelled : Bool)
  | statusCh (code : Int)
  | ctxDone
deriving DecidableEq

/-- Terminal outcome of container.Runner.Run's wait. -/
inductive RunOutcome
  | success
  | exitCodeFailure (code : Int)
  | waitFailure
  | cancelled
deriving DecidableEq

/-- The exit select of container.Runner.Run: a wait error not attributable
to cancellation is a failure; a nonzero status code is a failure carrying
the code; zero is success; context cancellation stops the container and is
its own outcome. -/
def waitForContainer (ev : WaitEvent) : RunOutcome :=
  match ev with
  | WaitEvent.errCh hasErr ctxCancelled =>
    if hasErr ∧ ctxCancelled = false then RunOutcome.waitFailure else RunOutcome.success
  | WaitEvent.statusCh code =>
    if code ≠ 0 then RunOutcome.exitCodeFailure code else RunOutcome.success
  | WaitEvent.ctxDone => RunOutcome.cancelled

/-- SSH sub-config with everything off. -/
def sshOff : SSHConfig where
  enabled := false
  keys := []
  knownHosts := false
  agentForwarding := false

/-- A configuration leaving every setting at its unset/auto value. -/
def cfgAuto : Config where
  claude := { auth := "", sessionDir := "" }
  credentials := { github := CredentialAuto, gcloud := CredentialAuto, ssh := sshOff }

/-- A configuration with both tri-state services disabled and SSH off. -/
def cfgDisabled : Config where
  claude := { auth := "", sessionDir := "" }
  credentials := { github := CredentialDisabled, gcloud := CredentialDisabled, ssh := sshOff }

/-- A configuration asking for a writable session directory. -/
def cfgReadWrite : Config where
  claude := { auth := "", sessionDir := SessionReadWrite }
  credentials := { github := CredentialAuto, gcloud := CredentialAuto, ssh := sshOff }

/-- A configuration with a misspelled session-directory mode. -/
def cfgMisspelled : Config where
  claude := { auth := "", sessionDir := "read-only" }
  credentials := { github := CredentialAuto, gcloud := CredentialAuto, ssh := sshOff }

/-- envHU with the user's ~/.claude directory present on disk. -/
def envSession : Env where
  home := some ["home", "user"]
  cwd := some ["srv"]
  getenv := fun _ => ""
  evalSym := fun _ => EvalRes.notExist
  fileExists := fun _ => false
  dirExists := fun p => decide (p = ["home", "user", ".claude"])

/-- envHU with a GitHub token in the environment under the first alias. -/
def envGH : Env where
  home := some ["home", "user"]
  cwd := some ["srv"]
  getenv := fun v => if v = "GH_TOKEN" then "gh-token-value" else ""
  evalSym := fun _ => EvalRes.notExist
  fileExists := fun _ => false
  dirExists := fun _ => false

theorem relStartsWithDotDot_eq (t p : List String) :
    relStartsWithDotDot t p
      = (!(List.isPrefixOf t p) || firstCompEscapes (p.drop t.length)) := by
  induction t generalizing p with
  | nil =>
    cases p <;> simp [relStartsWithDotDot, List.isPrefixOf, firstCompEscapes]
  | cons a ts ih =>
    cases p with
    | nil => simp [relStartsWithDotDot, List.isPrefixOf]
    | cons b ps =>
      by_cases hab : a = b
      · subst hab
        simp [relStartsWithDotDot, List.isPrefixOf, ih]
      · simp [relStartsWithDotDot, List.isPrefixOf, hab]

theorem pathMatches_eq (p r : List String) :
    pathMatches p r = (List.isPrefixOf r p && !firstCompEscapes (p.drop r.length)) := by
  by_cases h : p = r
  · subst h
    have hrefl : ∀ l : List String, List.isPrefixOf l l = true := by
      intro l
      induction l with
      | nil => rfl
      | cons a rs ih => simp [List.isPrefixOf, ih]
    simp [pathMatches, firstCompEscapes, hrefl]
  · simp [pathMatches, h, relStartsWithDotDot_eq]

/-- C1: with home /home/user, the runContainer flag-mount loop accepts the
user-supplied mount ~/.ssh — a path equal to a credential-controlled rule —
because it validates with ValidateMountPath only, while
ValidateMountPathStrict (documented in the source as the check for
user-provided mounts) rejects exactly this path with a
requires-credential error.  The claim's strict two-tier check is therefore
not applied to the paths of the two mount flags. -/
theorem runContainer_sshDir_mount_accepted :
    addFlagMounts envHU false [{ isAbs := false, comps := ["~", ".ssh"] }]
      = Except.ok [{ source := ["home", "user", ".ssh"],
                     target := ["home", "user", ".ssh"], readOnly := false }]
    ∧ ValidateMountPathStrict envHU ["home", "user", ".ssh"]
      = Except.error (ValErr.pathRequiresCredential [".ssh"]) := ⟨rfl, rfl⟩

/-- C2: the path /home/user/.gnupg/..evil is a strict descendant of the
hard-denied rule ~/.gnupg (the expanded rule is a proper prefix of it), yet
ValidateMountPath accepts it: filepath.Rel yields the string "..evil",
whose first two characters are "..", so pathMatches treats the path as
outside the rule. -/
theorem ValidateMountPath_dotdot_descendant_ok :
    ValidateMountPath envHU ["home", "user", ".gnupg", "..evil"] = Except.ok ()
    ∧ List.isPrefixOf (expandTilde [".gnupg"] ["home", "user"])
        ["home", "user", ".gnupg", "..evil"] = true
    ∧ (["home", "user", ".gnupg", "..evil"] : List String) ≠ ["home", "user", ".gnupg"] :=
  ⟨rfl, rfl, by decide⟩

/-- C3 counterexample: the path /home/user/.netrc/..bak is strictly nested
inside the rule /home/user/.netrc (proper prefix, not equal), yet
pathMatches is false on it — refuting the claim that the predicate holds
for every strictly nested path. -/
theorem pathMatches_nested_dotdot_not_matched :
    pathMatches ["home", "user", ".netrc", "..bak"] ["home", "user", ".netrc"] = false
    ∧ List.isPrefixOf ["home", "user", ".netrc"] ["home", "user", ".netrc", "..bak"] = true
    ∧ (["home", "user", ".netrc", "..bak"] : List String) ≠ ["home", "user", ".netrc"] :=
  ⟨rfl, rfl, by decide⟩

/-- C3 amended: pathMatches holds iff the rule is a prefix of the path
(equality included) and the first component of the path below the rule does
not begin with "..";  in particular the rule ~/.netrc matches the input
~/.netrc, does not match the sibling ~/.netrc.bak, and validation of the
sibling succeeds while the rule path itself is denied. -/
theorem pathMatches_characterization :
    (∀ p r : List String,
      pathMatches p r = (List.isPrefixOf r p && !firstCompEscapes (p.drop r.length)))
    ∧ pathMatches ["home", "user", ".netrc"] ["home", "user", ".netrc"] = true
    ∧ pathMatches ["home", "user", ".netrc.bak"] ["home", "user", ".netrc"] = false
    ∧ ValidateMountPath envHU ["home", "user", ".netrc.bak"] = Except.ok ()
    ∧ ValidateMountPath envHU ["home", "user", ".netrc"]
        = Except.error (ValErr.pathDenied [".netrc"]) :=
  ⟨pathMatches_eq, rfl, rfl, rfl, rfl⟩

/-- C4 counterexample: resolving the empty path fails with an empty-path
error even though the home directory is determinable and the symlink probe
reports nothing but not-found — a failure cause the claim does not allow. -/
theorem ExpandPath_empty_input_fails :
    ExpandPath envHU { isAbs := false, comps := [] } = Except.error ExpandErr.emptyPath
    ∧ envHU.home = some ["home", "user"]
    ∧ envHU.evalSym [] = EvalRes.notExist := ⟨rfl, rfl, rfl⟩

/-- C4 amended: path resolution never fails solely because the target does
not exist; it fails only when the input is the empty path, the home
directory cannot be determined (tilde paths), the working directory cannot
be determined (relative paths), or the symlink probe reports an error other
than not-found. -/
theorem ExpandPath_failure_causes (env : Env) (p : GoPath) (e : ExpandErr)
    (h : ExpandPath env p = Except.error e) :
    (e = ExpandErr.emptyPath ∧ p = { isAbs := false, comps := [] })
    ∨ (e = ExpandErr.homeDirFail ∧ env.home = none)
    ∨ (e = ExpandErr.cwdFail ∧ env.cwd = none)
    ∨ (e = ExpandErr.resolveFail ∧ ∃ q, env.evalSym q = EvalRes.otherError) := by
  unfold ExpandPath at h
  split at h
  · rename_i hc
    injection h with h2
    subst h2
    left
    refine ⟨rfl, ?_⟩
    obtain ⟨h1, h2'⟩ := hc
    cases p
    simp_all
  · rename_i hc
    cases htl : expandTildeStep env p with
    | error e1 =>
      rw [htl] at h
      injection h with h2
      subst h2
      unfold expandTildeStep at htl
      split at htl
      · cases hh : env.home with
        | none =>
          rw [hh] at htl
          injection htl with h3
          subst h3
          right; left
          exact ⟨rfl, rfl⟩
        | some home => rw [hh] at htl; exact Except.noConfusion htl
      · exact Except.noConfusion htl
    | ok q =>
      rw [htl] at h
      have h2 : afterTilde env q = Except.error e := h
      unfold afterTilde at h2
      cases hab : absStep env q.isAbs (cleanComps q.isAbs q.comps) with
      | error e2 =>
        rw [hab] at h2
        injection h2 with h3
        subst h3
        unfold absStep at hab
        split at hab
        · exact Except.noConfusion hab
        · cases hcwd : env.cwd with
          | none =>
            rw [hcwd] at hab
            injection hab with h4
            subst h4
            right; right; left
            exact ⟨rfl, rfl⟩
          | some c => rw [hcwd] at hab; exact Except.noConfusion hab
      | ok abs =>
        rw [hab] at h2
        have h3 : resolveStep env abs = Except.error e := h2
        unfold resolveStep at h3
        cases hev : env.evalSym abs with
        | resolved r => rw [hev] at h3; exact Except.noConfusion h3
        | notExist => rw [hev] at h3; exact Except.noConfusion h3
        | otherError =>
          rw [hev] at h3
          injection h3 with h4
          subst h4
          right; right; right
          exact ⟨rfl, abs, hev⟩

/-- C4 witness: the amended theorem applied to the empty path under the
concrete environment envHU. -/
theorem ExpandPath_failure_causes_witness :
    (ExpandErr.emptyPath = ExpandErr.emptyPath
       ∧ ({ isAbs := false, comps := [] } : GoPath) = { isAbs := false, comps := [] })
    ∨ (ExpandErr.emptyPath = ExpandErr.homeDirFail ∧ envHU.home = none)
    ∨ (ExpandErr.emptyPath = ExpandErr.cwdFail ∧ envHU.cwd = none)
    ∨ (ExpandErr.emptyPath = ExpandErr.resolveFail ∧ ∃ q, envHU.evalSym q = EvalRes.otherError) :=
  ExpandPath_failure_causes envHU { isAbs := false, comps := [] } ExpandErr.emptyPath rfl

theorem shouldEnable_of_ne_disabled (env : Env) (setting : String) (vars : List String)
    (h : setting ≠ CredentialDisabled) : shouldEnable env setting vars = true := by
  unfold shouldEnable
  split_ifs with h1 h2 h3 <;> rfl

theorem shouldEnable_disabled_false (env : Env) (vars : List String) :
    shouldEnable env CredentialDisabled vars = false := by
  simp [shouldEnable, CredentialEnabled, CredentialDisabled]

/-- C5: with a session-directory auth mode allowed and the local session
directory existing, an unset session-dir mode yields one read-only mount,
"readwrite" yields one writable mount, "none" yields no mount; and for
every environment and configuration the collector emits at most one mount,
always targeted at the fixed sandbox path. -/
theorem CollectClaudeAuth_session_modes (env : Env) (cfg : Config) (home : List String)
    (h1 : env.home = some home)
    (h2 : env.dirExists (home ++ [".claude"]) = true)
    (h3 : cfg.claude.auth = "" ∨ cfg.claude.auth = AuthAuto ∨ cfg.claude.auth = AuthSession) :
    (cfg.claude.sessionDir = "" →
      (CollectClaudeAuth env cfg).1
        = [{ source := home ++ [".claude"], target := tmpClaudeTarget, readOnly := true }])
    ∧ (cfg.claude.sessionDir = SessionReadWrite →
      (CollectClaudeAuth env cfg).1
        = [{ source := home ++ [".claude"], target := tmpClaudeTarget, readOnly := false }])
    ∧ (cfg.claude.sessionDir = SessionNone → (CollectClaudeAuth env cfg).1 = [])
    ∧ (∀ env2 cfg2, (CollectClaudeAuth env2 cfg2).1.length ≤ 1
        ∧ ((CollectClaudeAuth env2 cfg2).1.all fun m => m.target == tmpClaudeTarget) = true) := by
  refine ⟨?_, ?_, ?_, ?_⟩
  · intro hsd
    rcases h3 with ha | ha | ha <;>
      simp [CollectClaudeAuth, h1, h2, hsd, resolvedSessionDir, ha, AuthAuto, AuthSession,
        SessionReadOnly, SessionNone]
  · intro hsd
    rcases h3 with ha | ha | ha <;>
      simp [CollectClaudeAuth, h1, h2, hsd, resolvedSessionDir, ha, AuthAuto, AuthSession,
        SessionReadOnly, SessionReadWrite, SessionNone]
  · intro hsd
    rcases h3 with ha | ha | ha <;>
      simp [CollectClaudeAuth, h1, h2, hsd, resolvedSessionDir, ha, AuthAuto, AuthSession,
        SessionNone]
  · intro env2 cfg2
    cases henv : env2.home with
    | none => simp [CollectClaudeAuth, henv]
    | some home2 =>
      constructor
      · simp only [CollectClaudeAuth, henv]
        repeat' split
        all_goals simp
      · simp only [CollectClaudeAuth, henv]
        repeat' split
        all_goals simp

/-- C5 witness: the unset mode with the session directory present yields
exactly the read-only mount of /home/user/.claude. -/
theorem CollectClaudeAuth_session_modes_witness :
    (CollectClaudeAuth envSession cfgAuto).1
      = [{ source := ["home", "user", ".claude"], target := tmpClaudeTarget, readOnly := true }] :=
  (CollectClaudeAuth_session_modes envSession cfgAuto ["home", "user"] rfl (by decide)
    (Or.inl rfl)).1 rfl

/-- C6: a disabled policy for the GitHub or the GCloud service yields zero
mounts and zero environment entries from that service's block, for every
environment and filesystem state; with both disabled and SSH off the whole
external collector contributes nothing. -/
theorem disabled_service_zero_contribution (env : Env) (cfg : Config) (home : List String) :
    (cfg.credentials.github = CredentialDisabled → collectGitHub env cfg home = ([], []))
    ∧ (cfg.credentials.gcloud = CredentialDisabled → collectGCloud env cfg home = ([], []))
    ∧ (cfg.credentials.github = CredentialDisabled → cfg.credentials.gcloud = CredentialDisabled →
        cfg.credentials.ssh.enabled = false → env.home = some home →
        CollectExternalCredentials env cfg = Except.ok ([], [])) := by
  refine ⟨?_, ?_, ?_⟩
  · intro hg
    simp [collectGitHub, hg, shouldEnable_disabled_false]
  · intro hg
    simp [collectGCloud, hg, shouldEnable_disabled_false]
  · intro hg hc hssh hh
    simp [CollectExternalCredentials, hh, collectGitHub, collectGCloud, hg, hc, hssh,
      shouldEnable_disabled_false]

/-- C6 witness: the disabled configuration contributes nothing under the
concrete environment envHU. -/
theorem disabled_service_zero_contribution_witness :
    collectGitHub envHU cfgDisabled ["home", "user"] = ([], [])
    ∧ collectGCloud envHU cfgDisabled ["home", "user"] = ([], [])
    ∧ CollectExternalCredentials envHU cfgDisabled = Except.ok ([], []) :=
  ⟨(disabled_service_zero_contribution envHU cfgDisabled ["home", "user"]).1 rfl,
   (disabled_service_zero_contribution envHU cfgDisabled ["home", "user"]).2.1 rfl,
   (disabled_service_zero_contribution envHU cfgDisabled ["home", "user"]).2.2 rfl rfl rfl rfl⟩

/-- C7: under any non-disabled GitHub policy, a set token environment
variable yields only an environment contribution with the first alias
preferred; the hosts-file mount appears only when neither variable is set;
and a file mount and an environment entry are never emitted together. -/
theorem collectGitHub_env_over_file (env : Env) (cfg : Config) (home : List String)
    (hpol : cfg.credentials.github ≠ CredentialDisabled) :
    (env.getenv "GH_TOKEN" ≠ "" →
      collectGitHub env cfg home = ([], [("GH_TOKEN", env.getenv "GH_TOKEN")]))
    ∧ (env.getenv "GH_TOKEN" = "" → env.getenv "GITHUB_TOKEN" ≠ "" →
      collectGitHub env cfg home = ([], [("GH_TOKEN", env.getenv "GITHUB_TOKEN")]))
    ∧ ((env.getenv "GH_TOKEN" ≠ "" ∨ env.getenv "GITHUB_TOKEN" ≠ "") →
      (collectGitHub env cfg home).1 = [])
    ∧ ((collectGitHub env cfg home).1 ≠ [] → (collectGitHub env cfg home).2 = []) := by
  have hen := shouldEnable_of_ne_disabled env cfg.credentials.github ["GH_TOKEN", "GITHUB_TOKEN"] hpol
  refine ⟨?_, ?_, ?_, ?_⟩
  · intro hg
    simp [collectGitHub, hen, hg]
  · intro h0 hg
    simp [collectGitHub, hen, h0, hg]
  · intro hor
    by_cases h0 : env.getenv "GH_TOKEN" = ""
    · rcases hor with hg | hg
      · exact absurd h0 hg
      · simp [collectGitHub, hen, h0, hg]
    · simp [collectGitHub, hen, h0]
  · intro hne
    by_cases h0 : env.getenv "GH_TOKEN" = ""
    · by_cases h1 : env.getenv "GITHUB_TOKEN" = ""
      · simp [collectGitHub, hen, h0, h1]
        split <;> simp
      · simp [collectGitHub, hen, h0, h1] at hne
    · simp [collectGitHub, hen, h0] at hne

/-- C7 witness: with GH_TOKEN set, the GitHub block emits only the
environment entry, no mount. -/
theorem collectGitHub_env_over_file_witness :
    collectGitHub envGH cfgAuto ["home", "user"] = ([], [("GH_TOKEN", "gh-token-value")]) :=
  (collectGitHub_env_over_file envGH cfgAuto ["home", "user"] (by decide)).1 (by decide)

/-- C8: when the status channel resolves with exit code N, the runner
returns success exactly for N = 0 and a failure carrying N otherwise; a
status-channel outcome is never the cancellation outcome, which is reserved
for context cancellation. -/
theorem waitForContainer_exit_policy (code : Int) :
    (waitForContainer (WaitEvent.statusCh code) = RunOutcome.success ↔ code = 0)
    ∧ (code ≠ 0 → waitForContainer (WaitEvent.statusCh code) = RunOutcome.exitCodeFailure code)
    ∧ waitForContainer (WaitEvent.statusCh code) ≠ RunOutcome.cancelled
    ∧ waitForContainer WaitEvent.ctxDone = RunOutcome.cancelled := by
  refine ⟨?_, ?_, ?_, rfl⟩
  · by_cases h : code = 0 <;> simp [waitForContainer, h]
  · intro h
    simp [waitForContainer, h]
  · by_cases h : code = 0 <;> simp [waitForContainer, h]

/-- C8 witness: exit code 2 surfaces as the failure carrying 2, not as
success or cancellation; exit code 0 surfaces as success. -/
theorem waitForContainer_exit_policy_witness :
    ((2 : Int) ≠ 0)
    ∧ waitForContainer (WaitEvent.statusCh 2) = RunOutcome.exitCodeFailure 2
    ∧ waitForContainer (WaitEvent.statusCh 0) = RunOutcome.success :=
  ⟨by decide, (waitForContainer_exit_policy 2).2.1 (by decide),
   (waitForContainer_exit_policy 0).1.mpr rfl⟩

/-- C9: every credential setting other than the exact string "disabled" —
the empty string and misspellings included — enables the attempt exactly as
the "auto" setting does. -/
theorem shouldEnable_only_disabled_suppresses (env : Env) (setting : String)
    (vars : List String) (h : setting ≠ CredentialDisabled) :
    shouldEnable env setting vars = shouldEnable env CredentialAuto vars
    ∧ shouldEnable env setting vars = true := by
  have ha := shouldEnable_of_ne_disabled env setting vars h
  have hb := shouldEnable_of_ne_disabled env CredentialAuto vars (by decide)
  exact ⟨ha.trans hb.symm, ha⟩

/-- C9 witness: the misspelling "disbaled" behaves exactly as "auto". -/
theorem shouldEnable_only_disabled_suppresses_witness :
    (("disbaled" : String) ≠ CredentialDisabled)
    ∧ shouldEnable envHU "disbaled" ["GH_TOKEN", "GITHUB_TOKEN"]
        = shouldEnable envHU CredentialAuto ["GH_TOKEN", "GITHUB_TOKEN"]
    ∧ shouldEnable envHU "disbaled" ["GH_TOKEN", "GITHUB_TOKEN"] = true :=
  ⟨by decide,
   (shouldEnable_only_disabled_suppresses envHU "disbaled" ["GH_TOKEN", "GITHUB_TOKEN"]
     (by decide)).1,
   (shouldEnable_only_disabled_suppresses envHU "disbaled" ["GH_TOKEN", "GITHUB_TOKEN"]
     (by decide)).2⟩

/-- C10: every emitted session-directory mount carries a read-only flag
equal to (resolved session-dir mode == "readonly"); consequently every
session-dir value other than the empty string and "readonly" — including
misspellings like "read-only" — yields only writable mounts. -/
theorem CollectClaudeAuth_readOnly_iff (env : Env) (cfg : Config) :
    ((CollectClaudeAuth env cfg).1.all fun m =>
        m.readOnly == (if resolvedSessionDir cfg = SessionReadOnly then true else false)) = true
    ∧ (cfg.claude.sessionDir ≠ "" → cfg.claude.sessionDir ≠ SessionReadOnly →
        ((CollectClaudeAuth env cfg).1.all fun m => m.readOnly == false) = true) := by
  constructor
  · cases henv : env.home with
    | none => simp [CollectClaudeAuth, henv]
    | some home =>
      simp only [CollectClaudeAuth, henv]
      repeat' split
      all_goals simp
  · intro ha hb
    have hres : resolvedSessionDir cfg = cfg.claude.sessionDir := by
      simp [resolvedSessionDir, ha]
    cases henv : env.home with
    | none => simp [CollectClaudeAuth, henv]
    | some home =>
      simp only [CollectClaudeAuth, henv]
      repeat' split
      all_goals simp_all

/-- C10 witness: the misspelled mode "read-only" emits one mount and it is
writable. -/
theorem CollectClaudeAuth_readOnly_iff_witness :
    (cfgMisspelled.claude.sessionDir ≠ "")
    ∧ (CollectClaudeAuth envSession cfgMisspelled).1.length = 1
    ∧ ((CollectClaudeAuth envSession cfgMisspelled).1.all fun m => m.readOnly == false) = true :=
  ⟨by decide, by decide,
   (CollectClaudeAuth_readOnly_iff envSession cfgMisspelled).2 (by decide) (by decide)⟩

end Enclaude
